import Mathlib

/-!
A shallow embedding of the ledger-example repository's core model
(src/lib/Ledger.js and src/lib/Account.js): transaction records, the
per-account mirroring with its sign conventions, point-in-time balance
queries, and the CSV ingestion loop.

Mutable JS objects are modelled by a store of transaction records
addressed by allocation order; Account and Ledger objects are passed and
returned explicitly, and the registry write-back models the JS registry
holding the very object that Account methods mutate in place.  JS floats
are modelled as rationals; the external date facility (moment) and float
facility (parseFloat) are modelled on the literal forms the ledger
cares about.
-/

namespace LedgerModel

/-- A calendar instant as exposed by the external date facility (moment):
year, month, day, and a time-of-day component that day-granularity
comparisons ignore. -/
structure Moment where
  year : Nat
  month : Nat
  day : Nat
  tod : Nat
deriving DecidableEq

/-- Day-granularity strict comparison, moment's isBefore with the day
unit: the time-of-day component is ignored. -/
def Moment.isBeforeDay (a b : Moment) : Bool :=
  a.year < b.year ||
    (a.year == b.year &&
      (a.month < b.month || (a.month == b.month && a.day < b.day)))

/-- A formatted ledger transaction record, the object built by
Ledger._formatRecord: a moment date, payer and payee account names, and
a numeric amount. -/
structure Trx where
  date : Moment
  payer : String
  payee : String
  amount : ℚ
deriving DecidableEq

/-- In-place amount negation, record.amount = -1 * record.amount. -/
def Trx.negateAmount (t : Trx) : Trx :=
  { t with amount := -t.amount }

/-- Object identity: records live in a store and are referred to by the
index at which they were allocated. -/
abbrev Addr := Nat

abbrev Store := List Trx

/-- Allocate a fresh record object (an Object.assign copy, or a newly
built record) and return the new store with its address. -/
def alloc (s : Store) (t : Trx) : Store × Addr :=
  (s ++ [t], s.length)

/-- An Account (src/lib/Account.js): its name and the references it has
pushed onto this.transactions. -/
structure Account where
  accountName : String
  transactions : List Addr
deriving DecidableEq

/-- new Account(accountName). -/
def Account.new (n : String) : Account :=
  { accountName := n, transactions := [] }

/-- Account.prototype.balance for an already-parsed date argument:
iterate over the stored references, adding the amount of every record
dated strictly before atDate at day granularity.  The JS method only
reads state, so it is a pure function here. -/
def Account.balance (s : Store) (a : Account) (atDate : Moment) : ℚ :=
  a.transactions.foldl
    (fun b i =>
      match s[i]? with
      | some trx => if trx.date.isBeforeDay atDate then b + trx.amount else b
      | none => b)
    0

/-- Account.prototype.credit: push the caller's record reference. -/
def Account.credit (s : Store) (a : Account) (r : Addr) : Store × Account :=
  (s, { a with transactions := a.transactions ++ [r] })

/-- Account.prototype.debit: negate the record's amount in place, then
push the caller's record reference. -/
def Account.debit (s : Store) (a : Account) (r : Addr) : Store × Account :=
  (match s[r]? with
   | some trx => s.set r trx.negateAmount
   | none => s,
   { a with transactions := a.transactions ++ [r] })

/-- Account.prototype.addTransaction, the variant with the explicit
unrelated-transaction branch: debit when this account is the payer,
else credit when it is the payee, else throw.  Dereferencing a dangling
address (impossible in the modelled flows) is also an error. -/
def Account.addTransaction (s : Store) (a : Account) (r : Addr) :
    Except String (Store × Account) :=
  match s[r]? with
  | none => .error "invalid transaction reference"
  | some trx =>
    if trx.payer == a.accountName then
      .ok (a.debit s r)
    else if trx.payee == a.accountName then
      .ok (a.credit s r)
    else
      .error "Transaction is not associated with this account"

/-- A Ledger (src/lib/Ledger.js): the account registry and the canonical
transaction log, as references into the store.  The JS name-keyed
accounts object is modelled as a list of Accounts looked up by
accountName; the only insertion is _findOrCreateAccount's, which keeps
registry key and accountName equal. -/
structure Ledger where
  accounts : List Account
  transactions : List Addr
deriving DecidableEq

/-- new Ledger(). -/
def Ledger.new : Ledger :=
  { accounts := [], transactions := [] }

/-- Ledger.prototype.account: strict lookup, undefined when missing. -/
def Ledger.account (L : Ledger) (n : String) : Option Account :=
  L.accounts.find? (fun a => a.accountName == n)

/-- Ledger.prototype.balance: delegate to the account's balance when the
account exists, return undefined otherwise. -/
def Ledger.balance (s : Store) (L : Ledger) (n : String) (atDate : Moment) :
    Option ℚ :=
  match L.account n with
  | some account => some (Account.balance s account atDate)
  | none => none

/-- Ledger.prototype._findOrCreateAccount. -/
def Ledger._findOrCreateAccount (L : Ledger) (n : String) : Ledger × Account :=
  match L.account n with
  | some a => (L, a)
  | none =>
    ({ L with accounts := L.accounts ++ [Account.new n] }, Account.new n)

/-- Write an updated Account object back into the registry; models the
JS registry holding the very object that Account methods mutate in
place. -/
def Ledger.setAccount (L : Ledger) (n : String) (a : Account) : Ledger :=
  { L with accounts := L.accounts.map (fun b => if b.accountName == n then a else b) }

/-- Ledger.prototype.addTransaction: push the record reference onto the
canonical log, then hand a fresh copy of the record to the payee's
account, then another fresh copy to the payer's account. -/
def Ledger.addTransaction (s : Store) (L : Ledger) (r : Addr) :
    Except String (Store × Ledger) :=
  match s[r]? with
  | none => .error "invalid transaction reference"
  | some record =>
    let L1 : Ledger := { L with transactions := L.transactions ++ [r] }
    let pq := L1._findOrCreateAccount record.payee
    let a1 := alloc s record
    match Account.addTransaction a1.1 pq.2 a1.2 with
    | .error e => .error e
    | .ok s2a =>
      let L3 := pq.1.setAccount record.payee s2a.2
      match s2a.1[r]? with
      | none => .error "invalid transaction reference"
      | some record2 =>
        let pr := L3._findOrCreateAccount record2.payer
        let a2 := alloc s2a.1 record2
        match Account.addTransaction a2.1 pr.2 a2.2 with
        | .error e => .error e
        | .ok s4a => .ok (s4a.1, pr.1.setAccount record2.payer s4a.2)

/-- A raw CSV row as delivered by the external CSV facility with fixed
columns date, payer, payee, amount: four string fields. -/
structure RawRow where
  date : String
  payer : String
  payee : String
  amount : String
deriving DecidableEq

def digitVal (c : Char) : Nat := c.toNat - '0'.toNat

/-- Read a maximal run of decimal digits: accumulated value, number of
digits read, rest of the input. -/
def readDigits : List Char → Nat → Nat → Nat × Nat × List Char
  | c :: cs, acc, n =>
    if c.isDigit then readDigits cs (10 * acc + digitVal c) (n + 1)
    else (acc, n, c :: cs)
  | [], acc, n => (acc, n, [])

/-- Models the external float facility (JS parseFloat) on the decimal
literals the ledger cares about: optional leading whitespace, optional
sign, integer digits, optional fractional digits; trailing characters
are ignored; none (NaN) when no digit at all was read. -/
def parseFloatQ (str : String) : Option ℚ :=
  let cs := str.data.dropWhile
    (fun c => c == ' ' || c == '\t' || c == '\n' || c == '\r')
  let sgn : Bool × List Char :=
    match cs with
    | '-' :: t => (true, t)
    | '+' :: t => (false, t)
    | _ => (false, cs)
  let ipart := readDigits sgn.2 0 0
  let fpart : Nat × Nat :=
    match ipart.2.2 with
    | '.' :: t =>
      let f := readDigits t 0 0
      (f.1, f.2.1)
    | _ => (0, 0)
  if ipart.2.1 + fpart.2 == 0 then none
  else
    let mag : ℚ :=
      mkRat (Int.ofNat (ipart.1 * 10 ^ fpart.2 + fpart.1)) (10 ^ fpart.2)
    some (if sgn.1 then -mag else mag)

/-- Models the external date facility (moment with the ISO_8601 format)
on the canonical calendar-date form YYYY-MM-DD. -/
def parseISODate (str : String) : Option Moment :=
  match str.data with
  | [y1, y2, y3, y4, '-', m1, m2, '-', d1, d2] =>
    if (y1.isDigit && y2.isDigit && y3.isDigit && y4.isDigit &&
        m1.isDigit && m2.isDigit && d1.isDigit && d2.isDigit) then
      let y := ((digitVal y1 * 10 + digitVal y2) * 10 + digitVal y3) * 10 + digitVal y4
      let m := digitVal m1 * 10 + digitVal m2
      let d := digitVal d1 * 10 + digitVal d2
      if 1 ≤ m && m ≤ 12 && 1 ≤ d && d ≤ 31 then
        some { year := y, month := m, day := d, tod := 0 }
      else none
    else none
  | _ => none

/-- Ledger.prototype._formatRecord: validate the raw row by parsing the
date and then the amount; throw on either failure, naming the raw
value. -/
def Ledger._formatRecord (row : RawRow) : Except String Trx :=
  match parseISODate row.date with
  | none => .error ("invalid date format in input: " ++ row.date)
  | some d =>
    match parseFloatQ row.amount with
    | none => .error ("invalid amount value in input: " ++ row.amount)
    | some a => .ok { date := d, payer := row.payer, payee := row.payee, amount := a }

/-- A rejected promise keeps its first rejection reason. -/
def firstErr (e : Option String) (msg : String) : Option String :=
  match e with
  | some m => some m
  | none => some msg

/-- The while loop inside the parser's readable handler: format and
ingest each row in arrival order; a throw is caught and rejects the
promise with the first error, after which the loop keeps consuming the
remaining rows. -/
def Ledger.parseRows : Store → Ledger → Option String → List RawRow →
    Store × Ledger × Option String
  | s, L, e, [] => (s, L, e)
  | s, L, e, row :: rest =>
    match Ledger._formatRecord row with
    | .error msg => Ledger.parseRows s L (firstErr e msg) rest
    | .ok trx =>
      let a := alloc s trx
      match Ledger.addTransaction a.1 L a.2 with
      | .error msg => Ledger.parseRows a.1 L (firstErr e msg) rest
      | .ok sL => Ledger.parseRows sL.1 sL.2 e rest

/-- Ledger.prototype.parse: none models a missing source (neither text
nor stream), rejected immediately with the no-input error; a present
source stands for the sequence of structurally well-formed rows the
external CSV facility delivers from the text or stream.  The third
component is the promise's rejection reason, none when it resolves. -/
def Ledger.parse (s : Store) (L : Ledger) (input : Option (List RawRow)) :
    Store × Ledger × Option String :=
  match input with
  | none => (s, L, some "No valid CSV provided: nothing to parse")
  | some rows => Ledger.parseRows s L none rows

/-- The references an account holds before an ingestion; empty when the
account does not exist yet. -/
def prevTrans (L : Ledger) (n : String) : List Addr :=
  match L.account n with
  | some a => a.transactions
  | none => []

/-- The balance an account answers before an ingestion; 0 when the
account does not exist yet. -/
def oldBalance (s : Store) (L : Ledger) (n : String) (atDate : Moment) : ℚ :=
  match L.account n with
  | some a => Account.balance s a atDate
  | none => 0

/-! Registry and account-method helper lemmas. -/

theorem findOrCreate_spec (L : Ledger) (n : String) :
    (L._findOrCreateAccount n).2.accountName = n ∧
    (L._findOrCreateAccount n).2.transactions = prevTrans L n ∧
    (L._findOrCreateAccount n).1.transactions = L.transactions ∧
    (L._findOrCreateAccount n).1.account n = some (L._findOrCreateAccount n).2 ∧
    ∀ m, m ≠ n → (L._findOrCreateAccount n).1.account m = L.account m := by
  unfold Ledger._findOrCreateAccount prevTrans
  cases h : L.account n with
  | some a =>
    have h' := h
    unfold Ledger.account at h'
    have hname : a.accountName = n := by
      have := List.find?_some h'
      exact eq_of_beq this
    exact ⟨hname, rfl, rfl, h, fun m _ => rfl⟩
  | none =>
    have h' := h
    unfold Ledger.account at h'
    refine ⟨rfl, rfl, rfl, ?_, ?_⟩
    · show (L.accounts ++ [Account.new n]).find? (fun a => a.accountName == n) = _
      simp [List.find?_append, h', Account.new, List.find?]
    · intro m hm
      show (L.accounts ++ [Account.new n]).find? (fun a => a.accountName == m) =
        L.accounts.find? (fun a => a.accountName == m)
      have : ((Account.new n).accountName == m) = false := by
        simp [Account.new]
        exact fun hc => hm hc.symm
      simp [List.find?_append, List.find?, this]

theorem setAccount_transactions (L : Ledger) (n : String) (a : Account) :
    (L.setAccount n a).transactions = L.transactions := rfl

theorem find?_map_upd_self (l : List Account) (n : String) (a b : Account)
    (ha : a.accountName = n)
    (hb : l.find? (fun x => x.accountName == n) = some b) :
    (l.map (fun x => if x.accountName == n then a else x)).find?
        (fun x => x.accountName == n) = some a := by
  induction l with
  | nil => simp at hb
  | cons x l ih =>
    cases hx : (x.accountName == n) with
    | true =>
      simp only [List.map_cons, if_pos hx]
      exact List.find?_cons_of_pos _ (by simp [ha])
    | false =>
      simp only [List.map_cons]
      rw [if_neg (by simp [hx])]
      rw [List.find?_cons_of_neg _ (by simp [hx])]
      rw [List.find?_cons_of_neg _ (by simp [hx])] at hb
      exact ih hb

theorem find?_map_upd_other (l : List Account) (n m : String) (a : Account)
    (ha : a.accountName = n) (hm : m ≠ n) :
    (l.map (fun x => if x.accountName == n then a else x)).find?
        (fun x => x.accountName == m) =
    l.find? (fun x => x.accountName == m) := by
  induction l with
  | nil => rfl
  | cons x l ih =>
    have ham : (a.accountName == m) = false := by
      simp only [ha, beq_eq_false_iff_ne, ne_eq]
      exact fun hc => hm hc.symm
    cases hx : (x.accountName == n) with
    | true =>
      have hxm : (x.accountName == m) = false := by
        have hxn : x.accountName = n := by simpa using hx
        simp only [hxn, beq_eq_false_iff_ne, ne_eq]
        exact fun hc => hm hc.symm
      simp only [List.map_cons, if_pos hx]
      rw [List.find?_cons_of_neg _ (by simp [ham]),
        List.find?_cons_of_neg _ (by simp [hxm])]
      exact ih
    | false =>
      simp only [List.map_cons]
      rw [if_neg (by simp [hx])]
      cases hxm : (x.accountName == m) with
      | true =>
        rw [List.find?_cons_of_pos _ (by simp [hxm]),
          List.find?_cons_of_pos _ (by simp [hxm])]
      | false =>
        rw [List.find?_cons_of_neg _ (by simp [hxm]),
          List.find?_cons_of_neg _ (by simp [hxm])]
        exact ih

theorem account_setAccount_self (L : Ledger) (n : String) (a b : Account)
    (ha : a.accountName = n) (hb : L.account n = some b) :
    (L.setAccount n a).account n = some a := by
  unfold Ledger.account at hb ⊢
  exact find?_map_upd_self L.accounts n a b ha hb

theorem account_setAccount_other (L : Ledger) (n m : String) (a : Account)
    (ha : a.accountName = n) (hm : m ≠ n) :
    (L.setAccount n a).account m = L.account m := by
  unfold Ledger.account
  exact find?_map_upd_other L.accounts n m a ha hm

theorem account_add_debit (s : Store) (a : Account) (r : Addr) (trx : Trx)
    (hg : s[r]? = some trx) (hp : trx.payer = a.accountName) :
    Account.addTransaction s a r =
      .ok (s.set r trx.negateAmount,
        ⟨a.accountName, a.transactions ++ [r]⟩) := by
  unfold Account.addTransaction Account.debit
  rw [hg]
  simp [hp]

theorem account_add_credit (s : Store) (a : Account) (r : Addr) (trx : Trx)
    (hg : s[r]? = some trx) (hp : trx.payer ≠ a.accountName)
    (hq : trx.payee = a.accountName) :
    Account.addTransaction s a r =
      .ok (s, ⟨a.accountName, a.transactions ++ [r]⟩) := by
  unfold Account.addTransaction Account.credit
  rw [hg]
  simp [hp, hq]

theorem account_add_unrelated (s : Store) (a : Account) (r : Addr) (trx : Trx)
    (hg : s[r]? = some trx) (hp : trx.payer ≠ a.accountName)
    (hq : trx.payee ≠ a.accountName) :
    Account.addTransaction s a r =
      .error "Transaction is not associated with this account" := by
  unfold Account.addTransaction
  rw [hg]
  simp [hp, hq]

/-! Balance as a sum over the qualifying stored records. -/

theorem balance_go (s : Store) (atDate : Moment) (l : List Addr) (b : ℚ) :
    l.foldl
      (fun b i =>
        match s[i]? with
        | some trx => if trx.date.isBeforeDay atDate then b + trx.amount else b
        | none => b)
      b
    = b + (((l.filterMap (fun i => s[i]?)).filter
        (fun t => t.date.isBeforeDay atDate)).map Trx.amount).sum := by
  induction l generalizing b with
  | nil => simp
  | cons i l ih =>
    simp only [List.foldl_cons, List.filterMap_cons]
    cases hg : s[i]? with
    | none => simpa using ih b
    | some trx =>
      by_cases hd : trx.date.isBeforeDay atDate
      · simp only [hd, if_pos, List.filter_cons, List.map_cons, List.sum_cons]
        rw [ih (b + trx.amount)]
        ring
      · simp only [List.filter_cons, hd]
        simpa using ih b

theorem balance_spec (s : Store) (a : Account) (atDate : Moment) :
    Account.balance s a atDate =
      (((a.transactions.filterMap (fun i => s[i]?)).filter
          (fun t => t.date.isBeforeDay atDate)).map Trx.amount).sum := by
  unfold Account.balance
  simpa using balance_go s atDate a.transactions 0

theorem prevTrans_eq_of_account (L L2 : Ledger) (n : String)
    (h : L.account n = L2.account n) : prevTrans L n = prevTrans L2 n := by
  unfold prevTrans
  rw [h]

/-- Characterization of one ingestion with distinct payer and payee,
starting from the freshly allocated canonical record at address
s.length: the canonical log gains that address, the payee account gains
the copy at s.length + 1 holding the amount as-is, the payer account
gains the copy at s.length + 2 holding the negated amount, and the rest
of the store and registry are untouched. -/
theorem ingest_ne (s : Store) (L : Ledger) (rec : Trx)
    (hpq : rec.payer ≠ rec.payee) :
    ∃ s' L',
      Ledger.addTransaction (s ++ [rec]) L s.length = .ok (s', L') ∧
      L'.transactions = L.transactions ++ [s.length] ∧
      (∃ aq, L'.account rec.payee = some aq ∧ aq.accountName = rec.payee ∧
        aq.transactions = prevTrans L rec.payee ++ [s.length + 1]) ∧
      (∃ ap, L'.account rec.payer = some ap ∧ ap.accountName = rec.payer ∧
        ap.transactions = prevTrans L rec.payer ++ [s.length + 2]) ∧
      s'[s.length]? = some rec ∧
      s'[s.length + 1]? = some rec ∧
      s'[s.length + 2]? = some rec.negateAmount ∧
      (∀ i, i < s.length → s'[i]? = s[i]?) ∧
      (∀ n, n ≠ rec.payer → n ≠ rec.payee → L'.account n = L.account n) := by
  have h0 : (s ++ [rec])[s.length]? = some rec := List.getElem?_concat_length s rec
  simp only [Ledger.addTransaction, h0, alloc]
  set L1 : Ledger := { L with transactions := L.transactions ++ [s.length] } with hL1
  obtain ⟨hq1, hq2, hq3, hq4, hq5⟩ := findOrCreate_spec L1 rec.payee
  have hg1 : (s ++ [rec] ++ [rec])[(s ++ [rec]).length]? = some rec :=
    List.getElem?_concat_length (s ++ [rec]) rec
  have hpne : rec.payer ≠ (L1._findOrCreateAccount rec.payee).2.accountName := by
    rw [hq1]; exact hpq
  have hstep1 := account_add_credit (s ++ [rec] ++ [rec])
    (L1._findOrCreateAccount rec.payee).2 (s ++ [rec]).length rec hg1 hpne hq1.symm
  have hre : (s ++ [rec] ++ [rec])[s.length]? = some rec := by
    rw [List.getElem?_append_left (by simp)]
    exact h0
  simp only [hstep1, hre]
  set AQ2 : Account := ⟨(L1._findOrCreateAccount rec.payee).2.accountName,
    (L1._findOrCreateAccount rec.payee).2.transactions ++ [(s ++ [rec]).length]⟩
    with hAQ2
  set L3 : Ledger := (L1._findOrCreateAccount rec.payee).1.setAccount rec.payee AQ2
    with hL3
  obtain ⟨hp1, hp2, hp3, hp4, hp5⟩ := findOrCreate_spec L3 rec.payer
  have hg2 : ((s ++ [rec] ++ [rec]) ++ [rec])[(s ++ [rec] ++ [rec]).length]? = some rec :=
    List.getElem?_concat_length (s ++ [rec] ++ [rec]) rec
  have hstep2 := account_add_debit ((s ++ [rec] ++ [rec]) ++ [rec])
    (L3._findOrCreateAccount rec.payer).2 (s ++ [rec] ++ [rec]).length rec hg2 hp1.symm
  simp only [hstep2]
  set AP2 : Account := ⟨(L3._findOrCreateAccount rec.payer).2.accountName,
    (L3._findOrCreateAccount rec.payer).2.transactions ++ [(s ++ [rec] ++ [rec]).length]⟩
    with hAP2
  have hAQname : AQ2.accountName = rec.payee := hq1
  have hAPname : AP2.accountName = rec.payer := hp1
  refine ⟨_, _, rfl, ?_, ⟨AQ2, ?_, hAQname, ?_⟩, ⟨AP2, ?_, hAPname, ?_⟩,
    ?_, ?_, ?_, ?_, ?_⟩
  · rw [setAccount_transactions, hp3, hL3, setAccount_transactions, hq3, hL1]
  · rw [account_setAccount_other _ rec.payer rec.payee AP2 hAPname (Ne.symm hpq),
      hp5 rec.payee (Ne.symm hpq), hL3,
      account_setAccount_self _ rec.payee AQ2 _ hAQname hq4]
  · rw [hAQ2]
    show (L1._findOrCreateAccount rec.payee).2.transactions ++ _ = _
    rw [hq2]
    have hpt : prevTrans L1 rec.payee = prevTrans L rec.payee := rfl
    rw [hpt]
    simp
  · rw [account_setAccount_self _ rec.payer AP2 _ hAPname hp4]
  · rw [hAP2]
    show (L3._findOrCreateAccount rec.payer).2.transactions ++ _ = _
    rw [hp2]
    have hacc : L3.account rec.payer = L.account rec.payer := by
      rw [hL3, account_setAccount_other _ rec.payee rec.payer AQ2 hAQname hpq,
        hq5 rec.payer hpq, hL1]
      rfl
    rw [prevTrans_eq_of_account L3 L rec.payer hacc]
    simp
  · rw [List.getElem?_set_ne (by simp)]
    rw [List.getElem?_append_left (by simp), List.getElem?_append_left (by simp)]
    exact h0
  · rw [List.getElem?_set_ne (by simp)]
    rw [List.getElem?_append_left (by simp)]
    have h1 : s.length + 1 = (s ++ [rec]).length := by simp
    rw [h1]
    exact List.getElem?_concat_length (s ++ [rec]) rec
  · have h2 : (s ++ [rec] ++ [rec]).length = s.length + 2 := by simp
    rw [h2, List.getElem?_set_self (by simp)]
  · intro i hi
    rw [List.getElem?_set_ne (by simp; omega)]
    rw [List.getElem?_append_left (by simp; omega),
      List.getElem?_append_left (by simp; omega),
      List.getElem?_append_left hi]
  · intro n hnp hnq
    rw [account_setAccount_other _ rec.payer n AP2 hAPname hnp, hp5 n hnp, hL3,
      account_setAccount_other _ rec.payee n AQ2 hAQname hnq, hq5 n hnq, hL1]
    rfl

/-- Characterization of one ingestion whose payer equals its payee: the
single named account gains both copies, and both are debits because the
payer check precedes the payee check. -/
theorem ingest_eq (s : Store) (L : Ledger) (rec : Trx)
    (hpq : rec.payer = rec.payee) :
    ∃ s' L',
      Ledger.addTransaction (s ++ [rec]) L s.length = .ok (s', L') ∧
      L'.transactions = L.transactions ++ [s.length] ∧
      (∃ a', L'.account rec.payer = some a' ∧ a'.accountName = rec.payer ∧
        a'.transactions = prevTrans L rec.payer ++ [s.length + 1, s.length + 2]) ∧
      s'[s.length]? = some rec ∧
      s'[s.length + 1]? = some rec.negateAmount ∧
      s'[s.length + 2]? = some rec.negateAmount ∧
      (∀ i, i < s.length → s'[i]? = s[i]?) ∧
      (∀ n, n ≠ rec.payer → L'.account n = L.account n) := by
  have h0 : (s ++ [rec])[s.length]? = some rec := List.getElem?_concat_length s rec
  simp only [Ledger.addTransaction, h0, alloc]
  set L1 : Ledger := { L with transactions := L.transactions ++ [s.length] } with hL1
  obtain ⟨hq1, hq2, hq3, hq4, hq5⟩ := findOrCreate_spec L1 rec.payee
  have hg1 : (s ++ [rec] ++ [rec])[(s ++ [rec]).length]? = some rec :=
    List.getElem?_concat_length (s ++ [rec]) rec
  have hstep1 := account_add_debit (s ++ [rec] ++ [rec])
    (L1._findOrCreateAccount rec.payee).2 (s ++ [rec]).length rec hg1
    (hpq.trans hq1.symm)
  have hre : ((s ++ [rec] ++ [rec]).set (s ++ [rec]).length rec.negateAmount)[s.length]? =
      some rec := by
    rw [List.getElem?_set_ne (by simp), List.getElem?_append_left (by simp)]
    exact h0
  simp only [hstep1, hre]
  set S2 : Store := (s ++ [rec] ++ [rec]).set (s ++ [rec]).length rec.negateAmount
    with hS2
  set AQ2 : Account := ⟨(L1._findOrCreateAccount rec.payee).2.accountName,
    (L1._findOrCreateAccount rec.payee).2.transactions ++ [(s ++ [rec]).length]⟩
    with hAQ2
  set L3 : Ledger := (L1._findOrCreateAccount rec.payee).1.setAccount rec.payee AQ2
    with hL3
  obtain ⟨hp1, hp2, hp3, hp4, hp5⟩ := findOrCreate_spec L3 rec.payer
  have hg2 : (S2 ++ [rec])[S2.length]? = some rec :=
    List.getElem?_concat_length S2 rec
  have hstep2 := account_add_debit (S2 ++ [rec])
    (L3._findOrCreateAccount rec.payer).2 S2.length rec hg2 hp1.symm
  simp only [hstep2]
  set AP2 : Account := ⟨(L3._findOrCreateAccount rec.payer).2.accountName,
    (L3._findOrCreateAccount rec.payer).2.transactions ++ [S2.length]⟩ with hAP2
  have hAQname : AQ2.accountName = rec.payee := hq1
  have hAPname : AP2.accountName = rec.payer := hp1
  have hS2len : S2.length = s.length + 2 := by
    rw [hS2]; simp
  have hacc3 : L3.account rec.payer = some AQ2 := by
    rw [hpq, hL3, account_setAccount_self _ rec.payee AQ2 _ hAQname hq4]
  refine ⟨_, _, rfl, ?_, ⟨AP2, ?_, hAPname, ?_⟩, ?_, ?_, ?_, ?_, ?_⟩
  · rw [setAccount_transactions, hp3, hL3, setAccount_transactions, hq3, hL1]
  · rw [account_setAccount_self _ rec.payer AP2 _ hAPname hp4]
  · rw [hAP2]
    show (L3._findOrCreateAccount rec.payer).2.transactions ++ _ = _
    rw [hp2]
    have hprev3 : prevTrans L3 rec.payer = AQ2.transactions := by
      unfold prevTrans
      rw [hacc3]
    rw [hprev3, hAQ2]
    show ((L1._findOrCreateAccount rec.payee).2.transactions ++ _) ++ _ = _
    rw [hq2]
    have hpt : prevTrans L1 rec.payee = prevTrans L rec.payee := rfl
    rw [hpt, ← hpq, hS2len]
    simp
  · rw [List.getElem?_set_ne (by rw [hS2len]; omega),
      List.getElem?_append_left (by rw [hS2len]; omega)]
    exact hre
  · rw [List.getElem?_set_ne (by rw [hS2len]; omega),
      List.getElem?_append_left (by rw [hS2len]; omega), hS2]
    have h1 : s.length + 1 = (s ++ [rec]).length := by simp
    rw [h1, List.getElem?_set_self (by simp)]
  · rw [← hS2len, List.getElem?_set_self (by simp)]
  · intro i hi
    rw [List.getElem?_set_ne (by rw [hS2len]; omega),
      List.getElem?_append_left (by rw [hS2len]; omega), hS2,
      List.getElem?_set_ne (by simp; omega),
      List.getElem?_append_left (by simp; omega),
      List.getElem?_append_left hi]
  · intro n hnp
    have hnq : n ≠ rec.payee := by rw [← hpq]; exact hnp
    rw [account_setAccount_other _ rec.payer n AP2 hAPname hnp, hp5 n hnp, hL3,
      account_setAccount_other _ rec.payee n AQ2 hAQname hnq, hq5 n hnq, hL1]
    rfl

/-! Claim theorems. -/

/-- C2: for every account and date, balance equals the sum of the
already-signed stored amounts of exactly those stored transactions
dated strictly before atDate at day granularity; a transaction dated on
the same calendar day as atDate (any time of day) is excluded; with no
qualifying transactions the result is 0.  The balance is a pure
function of the state, mirroring the read-only JS method. -/
theorem C2_balance_sum (s : Store) (a : Account) (atDate : Moment) :
    Account.balance s a atDate =
      (((a.transactions.filterMap (fun i => s[i]?)).filter
          (fun t => t.date.isBeforeDay atDate)).map Trx.amount).sum ∧
    (∀ m : Moment, m.year = atDate.year → m.month = atDate.month →
      m.day = atDate.day → m.isBeforeDay atDate = false) ∧
    ((a.transactions.filterMap (fun i => s[i]?)).filter
        (fun t => t.date.isBeforeDay atDate) = [] →
      Account.balance s a atDate = 0) := by
  refine ⟨balance_spec s a atDate, ?_, ?_⟩
  · intro m hy hm hd
    unfold Moment.isBeforeDay
    simp [hy, hm, hd]
  · intro h
    rw [balance_spec s a atDate, h]
    rfl

/-- C2 witness: the balance of a concrete two-entry account at a
mid-point date. -/
theorem C2_balance_sum_witness :
    Account.balance
        [⟨⟨2015, 1, 16, 0⟩, "john", "mary", 125⟩,
         ⟨⟨2015, 1, 18, 0⟩, "john", "mary", 20⟩]
        ⟨"mary", [0, 1]⟩ ⟨2015, 1, 17, 0⟩ =
      ((([0, 1].filterMap (fun i =>
          ([⟨⟨2015, 1, 16, 0⟩, "john", "mary", 125⟩,
            ⟨⟨2015, 1, 18, 0⟩, "john", "mary", 20⟩] : Store)[i]?)).filter
          (fun t => t.date.isBeforeDay ⟨2015, 1, 17, 0⟩)).map Trx.amount).sum ∧
    (∀ m : Moment, m.year = 2015 → m.month = 1 → m.day = 17 →
      m.isBeforeDay ⟨2015, 1, 17, 0⟩ = false) ∧
    (([0, 1].filterMap (fun i =>
        ([⟨⟨2015, 1, 16, 0⟩, "john", "mary", 125⟩,
          ⟨⟨2015, 1, 18, 0⟩, "john", "mary", 20⟩] : Store)[i]?)).filter
        (fun t => t.date.isBeforeDay ⟨2015, 1, 17, 0⟩) = [] →
      Account.balance
        [⟨⟨2015, 1, 16, 0⟩, "john", "mary", 125⟩,
         ⟨⟨2015, 1, 18, 0⟩, "john", "mary", 20⟩]
        ⟨"mary", [0, 1]⟩ ⟨2015, 1, 17, 0⟩ = 0) :=
  C2_balance_sum
    [⟨⟨2015, 1, 16, 0⟩, "john", "mary", 125⟩,
     ⟨⟨2015, 1, 18, 0⟩, "john", "mary", 20⟩]
    ⟨"mary", [0, 1]⟩ ⟨2015, 1, 17, 0⟩

/-- C4: Account.addTransaction on a record that names this account
neither as payer nor as payee fails with the unrelated-transaction
error; the error is thrown before anything is pushed, so no new account
state is produced and the stored sequence is unchanged. -/
theorem C4_unrelated_error (s : Store) (a : Account) (r : Addr) (trx : Trx)
    (hg : s[r]? = some trx) (hp : trx.payer ≠ a.accountName)
    (hq : trx.payee ≠ a.accountName) :
    Account.addTransaction s a r =
      .error "Transaction is not associated with this account" :=
  account_add_unrelated s a r trx hg hp hq

/-- C4 witness: a gary account refuses a frank-to-bill transaction. -/
theorem C4_unrelated_error_witness :
    ([⟨⟨2017, 1, 1, 0⟩, "frank", "bill", 42⟩] : Store)[0]? =
      some ⟨⟨2017, 1, 1, 0⟩, "frank", "bill", 42⟩ ∧
    ("frank" : String) ≠ "gary" ∧
    ("bill" : String) ≠ "gary" ∧
    Account.addTransaction [⟨⟨2017, 1, 1, 0⟩, "frank", "bill", 42⟩]
        (Account.new "gary") 0 =
      .error "Transaction is not associated with this account" :=
  ⟨rfl, by decide, by decide,
    C4_unrelated_error [⟨⟨2017, 1, 1, 0⟩, "frank", "bill", 42⟩]
      (Account.new "gary") 0 ⟨⟨2017, 1, 1, 0⟩, "frank", "bill", 42⟩
      rfl (by decide) (by decide)⟩

/-- C7: Ledger.balance for a missing account name returns the explicit
absence signal (none), which is distinct from any real balance and in
particular from a zero balance, and is returned rather than raised; for
an existing account it delegates to that account's balance. -/
theorem C7_balance_absence (s : Store) (L : Ledger) (n : String)
    (atDate : Moment) :
    (L.account n = none →
      Ledger.balance s L n atDate = none ∧
      Ledger.balance s L n atDate ≠ some 0) ∧
    (∀ a, L.account n = some a →
      Ledger.balance s L n atDate = some (Account.balance s a atDate)) := by
  constructor
  · intro h
    unfold Ledger.balance
    rw [h]
    exact ⟨rfl, by simp⟩
  · intro a h
    unfold Ledger.balance
    rw [h]

/-- C7 witness: an empty ledger has no account named garfield. -/
theorem C7_balance_absence_witness :
    (Ledger.new.account "garfield" = none →
      Ledger.balance [] Ledger.new "garfield" ⟨2017, 1, 1, 0⟩ = none ∧
      Ledger.balance [] Ledger.new "garfield" ⟨2017, 1, 1, 0⟩ ≠ some 0) ∧
    (∀ a, Ledger.new.account "garfield" = some a →
      Ledger.balance [] Ledger.new "garfield" ⟨2017, 1, 1, 0⟩ =
        some (Account.balance [] a ⟨2017, 1, 1, 0⟩)) :=
  C7_balance_absence [] Ledger.new "garfield" ⟨2017, 1, 1, 0⟩

/-- C8: parse given neither text nor a stream fails immediately with
the nothing-to-parse error, and the store and the Ledger (canonical log
and account registry) are returned unchanged: no row is ingested. -/
theorem C8_no_input (s : Store) (L : Ledger) :
    Ledger.parse s L none =
      (s, L, some "No valid CSV provided: nothing to parse") := rfl

/-- C8 witness: parse of an empty ledger with no source. -/
theorem C8_no_input_witness :
    Ledger.parse [] Ledger.new none =
      ([], Ledger.new, some "No valid CSV provided: nothing to parse") :=
  C8_no_input [] Ledger.new

/-- C10: calling Account.addTransaction directly in the payer case
mutates the caller's record in place (the store cell at the caller's
address r now holds the negated amount) and pushes that same reference
r, not a copy; in the payee (credit) case it pushes the same reference
r and leaves the store untouched.  Either way the account's stored
entry aliases the caller's record. -/
theorem C10_alias_stored_reference (s : Store) (a : Account) (r : Addr)
    (trx : Trx) (hg : s[r]? = some trx) :
    (trx.payer = a.accountName →
      Account.addTransaction s a r =
        .ok (s.set r trx.negateAmount,
          ⟨a.accountName, a.transactions ++ [r]⟩)) ∧
    (trx.payer ≠ a.accountName → trx.payee = a.accountName →
      Account.addTransaction s a r =
        .ok (s, ⟨a.accountName, a.transactions ++ [r]⟩)) :=
  ⟨fun hp => account_add_debit s a r trx hg hp,
   fun hp hq => account_add_credit s a r trx hg hp hq⟩

/-- C10 witness: gary's account debits a gary-to-phil record in place
and stores the caller's reference 0. -/
theorem C10_alias_stored_reference_witness :
    ([⟨⟨2017, 1, 1, 0⟩, "gary", "phil", 42⟩] : Store)[0]? =
      some ⟨⟨2017, 1, 1, 0⟩, "gary", "phil", 42⟩ ∧
    ((("gary" : String) = "gary" →
      Account.addTransaction [⟨⟨2017, 1, 1, 0⟩, "gary", "phil", 42⟩]
          (Account.new "gary") 0 =
        .ok ([⟨⟨2017, 1, 1, 0⟩, "gary", "phil", 42⟩].set 0
            (Trx.negateAmount ⟨⟨2017, 1, 1, 0⟩, "gary", "phil", 42⟩),
          ⟨"gary", [0]⟩)) ∧
    (("gary" : String) ≠ "gary" → ("phil" : String) = "gary" →
      Account.addTransaction [⟨⟨2017, 1, 1, 0⟩, "gary", "phil", 42⟩]
          (Account.new "gary") 0 =
        .ok ([⟨⟨2017, 1, 1, 0⟩, "gary", "phil", 42⟩], ⟨"gary", [0]⟩))) :=
  ⟨rfl, C10_alias_stored_reference [⟨⟨2017, 1, 1, 0⟩, "gary", "phil", 42⟩]
    (Account.new "gary") 0 ⟨⟨2017, 1, 1, 0⟩, "gary", "phil", 42⟩ rfl⟩

/-- C1 counterexample: ingesting the valid self-row
2015-01-16,john,john,5 resolves, appends one canonical transaction, but
the single named account gains two stored entries (not exactly one
each), and the payee's stored copy carries -5 rather than +5. -/
theorem C1_counterexample :
    (Ledger.parse [] Ledger.new
        (some [⟨"2015-01-16", "john", "john", "5"⟩])).2.2 = none ∧
    ((Ledger.parse [] Ledger.new
        (some [⟨"2015-01-16", "john", "john", "5"⟩])).2.1.account "john").map
      (fun a => a.transactions.length) = some 2 ∧
    ((Ledger.parse [] Ledger.new
        (some [⟨"2015-01-16", "john", "john", "5"⟩])).1[1]?).map Trx.amount =
      some (-5) ∧
    ((Ledger.parse [] Ledger.new
        (some [⟨"2015-01-16", "john", "john", "5"⟩])).1[2]?).map Trx.amount =
      some (-5) := by
  refine ⟨?_, ?_, ?_, ?_⟩ <;> decide

/-- C1 (amended): for every valid ingested row whose payer differs from
its payee, ingestion appends exactly one canonical transaction to the
Ledger's log, and the payer's and payee's accounts each gain exactly
one stored entry, the payee's copy carrying amount +a and the payer's
copy -a, where a is the row's parsed amount. -/
theorem C1_amended (s : Store) (L : Ledger) (row : RawRow) (rec : Trx)
    (hfmt : Ledger._formatRecord row = .ok rec)
    (hpq : rec.payer ≠ rec.payee) :
    ∃ s' L',
      Ledger.addTransaction (s ++ [rec]) L s.length = .ok (s', L') ∧
      L'.transactions = L.transactions ++ [s.length] ∧
      (∃ aq, L'.account rec.payee = some aq ∧
        aq.transactions = prevTrans L rec.payee ++ [s.length + 1] ∧
        (s'[s.length + 1]?).map Trx.amount = some rec.amount) ∧
      (∃ ap, L'.account rec.payer = some ap ∧
        ap.transactions = prevTrans L rec.payer ++ [s.length + 2] ∧
        (s'[s.length + 2]?).map Trx.amount = some (-rec.amount)) := by
  obtain ⟨s', L', hrun, hlog, ⟨aq, haq1, _, haq3⟩, ⟨ap, hap1, _, hap3⟩,
    _, hc1, hc2, _, _⟩ := ingest_ne s L rec hpq
  refine ⟨s', L', hrun, hlog, ⟨aq, haq1, haq3, ?_⟩, ⟨ap, hap1, hap3, ?_⟩⟩
  · rw [hc1]
    rfl
  · rw [hc2]
    rfl

/-- C1 witness: ingesting 2015-01-16,john,mary,125.00 into an empty
ledger. -/
theorem C1_amended_witness :
    Ledger._formatRecord ⟨"2015-01-16", "john", "mary", "125.00"⟩ =
      .ok ⟨⟨2015, 1, 16, 0⟩, "john", "mary", 125⟩ ∧
    ("john" : String) ≠ "mary" ∧
    (∃ s' L',
      Ledger.addTransaction [⟨⟨2015, 1, 16, 0⟩, "john", "mary", 125⟩]
          Ledger.new 0 = .ok (s', L') ∧
      L'.transactions = [0] ∧
      (∃ aq, L'.account "mary" = some aq ∧
        aq.transactions = [1] ∧
        (s'[1]?).map Trx.amount = some 125) ∧
      (∃ ap, L'.account "john" = some ap ∧
        ap.transactions = [2] ∧
        (s'[2]?).map Trx.amount = some (-125))) :=
  ⟨rfl, by decide,
    C1_amended [] Ledger.new ⟨"2015-01-16", "john", "mary", "125.00"⟩
      ⟨⟨2015, 1, 16, 0⟩, "john", "mary", 125⟩ rfl (by decide)⟩

/-- C3: after each ingestion with distinct payer and payee, the
canonical record and the two account copies live at three pairwise
distinct addresses, so overwriting one account's copy with an
arbitrarily mutated record v changes neither the Ledger's canonical
record nor the other account's copy, in both directions. -/
theorem C3_independent_copies (s : Store) (L : Ledger) (rec : Trx) (v : Trx)
    (hpq : rec.payer ≠ rec.payee) :
    ∃ s' L',
      Ledger.addTransaction (s ++ [rec]) L s.length = .ok (s', L') ∧
      L'.transactions = L.transactions ++ [s.length] ∧
      (∃ aq, L'.account rec.payee = some aq ∧
        aq.transactions = prevTrans L rec.payee ++ [s.length + 1]) ∧
      (∃ ap, L'.account rec.payer = some ap ∧
        ap.transactions = prevTrans L rec.payer ++ [s.length + 2]) ∧
      ((s'.set (s.length + 1) v)[s.length]? = s'[s.length]? ∧
       (s'.set (s.length + 1) v)[s.length + 2]? = s'[s.length + 2]?) ∧
      ((s'.set (s.length + 2) v)[s.length]? = s'[s.length]? ∧
       (s'.set (s.length + 2) v)[s.length + 1]? = s'[s.length + 1]?) := by
  obtain ⟨s', L', hrun, hlog, ⟨aq, haq1, _, haq3⟩, ⟨ap, hap1, _, hap3⟩,
    _, _, _, _, _⟩ := ingest_ne s L rec hpq
  refine ⟨s', L', hrun, hlog, ⟨aq, haq1, haq3⟩, ⟨ap, hap1, hap3⟩,
    ⟨?_, ?_⟩, ⟨?_, ?_⟩⟩ <;> exact List.getElem?_set_ne (by omega)

/-- C3 witness: mutating a copy of the gary-to-phil record. -/
theorem C3_independent_copies_witness :
    ("gary" : String) ≠ "phil" ∧
    (∃ s' L',
      Ledger.addTransaction [⟨⟨2017, 1, 1, 0⟩, "gary", "phil", 42⟩]
          Ledger.new 0 = .ok (s', L') ∧
      L'.transactions = [0] ∧
      (∃ aq, L'.account "phil" = some aq ∧ aq.transactions = [1]) ∧
      (∃ ap, L'.account "gary" = some ap ∧ ap.transactions = [2]) ∧
      ((s'.set 1 ⟨⟨2017, 1, 1, 0⟩, "gary", "phil", 1⟩)[0]? = s'[0]? ∧
       (s'.set 1 ⟨⟨2017, 1, 1, 0⟩, "gary", "phil", 1⟩)[2]? = s'[2]?) ∧
      ((s'.set 2 ⟨⟨2017, 1, 1, 0⟩, "gary", "phil", 1⟩)[0]? = s'[0]? ∧
       (s'.set 2 ⟨⟨2017, 1, 1, 0⟩, "gary", "phil", 1⟩)[1]? = s'[1]?)) :=
  ⟨by decide,
    C3_independent_copies [] Ledger.new ⟨⟨2017, 1, 1, 0⟩, "gary", "phil", 42⟩
      ⟨⟨2017, 1, 1, 0⟩, "gary", "phil", 1⟩ (by decide)⟩

/-- C6 counterexample: the valid row 2015-01-16,john,mary,-5 resolves,
the canonical stored amount is -5 (not a positive magnitude), and payer
john's single stored amount is +5 (positive, not non-positive): the
sign of the input text flows through instead of being derived purely
from the payer/payee role. -/
theorem C6_counterexample :
    (Ledger.parse [] Ledger.new
        (some [⟨"2015-01-16", "john", "mary", "-5"⟩])).2.2 = none ∧
    ((Ledger.parse [] Ledger.new
        (some [⟨"2015-01-16", "john", "mary", "-5"⟩])).1[0]?).map Trx.amount =
      some (-5) ∧
    ((Ledger.parse [] Ledger.new
        (some [⟨"2015-01-16", "john", "mary", "-5"⟩])).2.1.account "john").map
      (fun a => a.transactions) = some [2] ∧
    ((Ledger.parse [] Ledger.new
        (some [⟨"2015-01-16", "john", "mary", "-5"⟩])).1[2]?).map Trx.amount =
      some 5 := by
  refine ⟨?_, ?_, ?_, ?_⟩ <;> decide

/-- C6 (amended): the canonical stored amount equals the signed value
parsed from the amount text; the payee's stored copy carries that value
and the payer's its negation.  In particular, for a row whose amount
text parses to a non-negative value and whose payer differs from its
payee, the canonical amount is the parsed value, the payee's stored
amount is non-negative and the payer's is non-positive. -/
theorem C6_amended (s : Store) (L : Ledger) (row : RawRow) (rec : Trx)
    (hfmt : Ledger._formatRecord row = .ok rec)
    (hpq : rec.payer ≠ rec.payee) (ha : 0 ≤ rec.amount) :
    parseFloatQ row.amount = some rec.amount ∧
    ∃ s' L',
      Ledger.addTransaction (s ++ [rec]) L s.length = .ok (s', L') ∧
      (s'[s.length]?).map Trx.amount = some rec.amount ∧
      (∃ q, (s'[s.length + 1]?).map Trx.amount = some q ∧ 0 ≤ q) ∧
      (∃ q, (s'[s.length + 2]?).map Trx.amount = some q ∧ q ≤ 0) := by
  have hamt : parseFloatQ row.amount = some rec.amount := by
    unfold Ledger._formatRecord at hfmt
    cases hd : parseISODate row.date with
    | none =>
      rw [hd] at hfmt
      exact absurd hfmt (by simp)
    | some d =>
      rw [hd] at hfmt
      cases ha2 : parseFloatQ row.amount with
      | none =>
        rw [ha2] at hfmt
        exact absurd hfmt (by simp)
      | some a2 =>
        rw [ha2] at hfmt
        simp only [Except.ok.injEq] at hfmt
        rw [← hfmt]
  obtain ⟨s', L', hrun, _, _, _, hc0, hc1, hc2, _, _⟩ := ingest_ne s L rec hpq
  refine ⟨hamt, s', L', hrun, ?_, ⟨rec.amount, ?_, ha⟩,
    ⟨-rec.amount, ?_, neg_nonpos.mpr ha⟩⟩
  · rw [hc0]
    rfl
  · rw [hc1]
    rfl
  · rw [hc2]
    rfl

/-- C6 witness: the row 2015-01-16,john,mary,125.00. -/
theorem C6_amended_witness :
    Ledger._formatRecord ⟨"2015-01-16", "john", "mary", "125.00"⟩ =
      .ok ⟨⟨2015, 1, 16, 0⟩, "john", "mary", 125⟩ ∧
    ("john" : String) ≠ "mary" ∧
    (0 : ℚ) ≤ 125 ∧
    (parseFloatQ "125.00" = some 125 ∧
    ∃ s' L',
      Ledger.addTransaction [⟨⟨2015, 1, 16, 0⟩, "john", "mary", 125⟩]
          Ledger.new 0 = .ok (s', L') ∧
      (s'[0]?).map Trx.amount = some 125 ∧
      (∃ q, (s'[1]?).map Trx.amount = some q ∧ 0 ≤ q) ∧
      (∃ q, (s'[2]?).map Trx.amount = some q ∧ q ≤ 0)) :=
  ⟨rfl, by decide, by decide,
    C6_amended [] Ledger.new ⟨"2015-01-16", "john", "mary", "125.00"⟩
      ⟨⟨2015, 1, 16, 0⟩, "john", "mary", 125⟩ rfl (by decide) (by decide)⟩

/-- C9: ingesting a row whose payer equals its payee (amount a > 0)
gives the single named account two stored copies, both recorded as
debits because the payer check precedes the payee check; with the
account's prior references valid and the record dated before atDate,
the account's balance changes by -2a, not 0. -/
theorem C9_self_row_double_debit (s : Store) (L : Ledger) (rec : Trx)
    (atDate : Moment) (hpq : rec.payer = rec.payee) (hamt : 0 < rec.amount)
    (hwf : ∀ i ∈ prevTrans L rec.payer, i < s.length)
    (hd : rec.date.isBeforeDay atDate = true) :
    ∃ s' L' a',
      Ledger.addTransaction (s ++ [rec]) L s.length = .ok (s', L') ∧
      L'.account rec.payer = some a' ∧
      a'.transactions = prevTrans L rec.payer ++ [s.length + 1, s.length + 2] ∧
      (s'[s.length + 1]?).map Trx.amount = some (-rec.amount) ∧
      (s'[s.length + 2]?).map Trx.amount = some (-rec.amount) ∧
      Account.balance s' a' atDate =
        oldBalance s L rec.payer atDate - 2 * rec.amount := by
  obtain ⟨s', L', hrun, hlog, ⟨a', ha1, _, ha3⟩, hc0, hc1, hc2, hstab, _⟩ :=
    ingest_eq s L rec hpq
  refine ⟨s', L', a', hrun, ha1, ha3, by rw [hc1]; rfl, by rw [hc2]; rfl, ?_⟩
  rw [balance_spec, ha3, List.filterMap_append]
  have hcopies : ([s.length + 1, s.length + 2].filterMap (fun i => s'[i]?)) =
      [rec.negateAmount, rec.negateAmount] := by
    simp [List.filterMap_cons, hc1, hc2]
  rw [hcopies]
  have hprev : (prevTrans L rec.payer).filterMap (fun i => s'[i]?) =
      (prevTrans L rec.payer).filterMap (fun i => s[i]?) :=
    List.filterMap_congr (fun i hi => hstab i (hwf i hi))
  rw [hprev, List.filter_append, List.map_append, List.sum_append]
  have hfilter2 : ([rec.negateAmount, rec.negateAmount].filter
      (fun t => t.date.isBeforeDay atDate)) =
      [rec.negateAmount, rec.negateAmount] := by
    simp [List.filter, Trx.negateAmount, hd]
  rw [hfilter2]
  cases hacc : L.account rec.payer with
  | none =>
    simp only [oldBalance, prevTrans, hacc]
    simp [Trx.negateAmount]
    ring
  | some a0 =>
    simp only [oldBalance, prevTrans, hacc]
    rw [balance_spec]
    simp [Trx.negateAmount]
    ring

/-- C9 witness: the self-row john,john,5 dated before the query date. -/
theorem C9_self_row_double_debit_witness :
    ("john" : String) = "john" ∧
    (0 : ℚ) < 5 ∧
    (∀ i ∈ prevTrans Ledger.new "john", i < 0) ∧
    Moment.isBeforeDay ⟨2015, 1, 16, 0⟩ ⟨2015, 1, 17, 0⟩ = true ∧
    (∃ s' L' a',
      Ledger.addTransaction [⟨⟨2015, 1, 16, 0⟩, "john", "john", 5⟩]
          Ledger.new 0 = .ok (s', L') ∧
      L'.account "john" = some a' ∧
      a'.transactions = [1, 2] ∧
      (s'[1]?).map Trx.amount = some (-5) ∧
      (s'[2]?).map Trx.amount = some (-5) ∧
      Account.balance s' a' ⟨2015, 1, 17, 0⟩ =
        oldBalance [] Ledger.new "john" ⟨2015, 1, 17, 0⟩ - 2 * 5) :=
  ⟨rfl, by decide, by decide, by decide,
    C9_self_row_double_debit [] Ledger.new
      ⟨⟨2015, 1, 16, 0⟩, "john", "john", 5⟩ ⟨2015, 1, 17, 0⟩
      rfl (by decide) (by decide) (by decide)⟩

/-! The parse loop: composition and first-error lemmas. -/

theorem parseRows_append (s : Store) (L : Ledger) (e : Option String)
    (xs ys : List RawRow) :
    Ledger.parseRows s L e (xs ++ ys) =
      Ledger.parseRows (Ledger.parseRows s L e xs).1
        (Ledger.parseRows s L e xs).2.1 (Ledger.parseRows s L e xs).2.2 ys := by
  induction xs generalizing s L e with
  | nil => rfl
  | cons row rest ih =>
    simp only [List.cons_append, Ledger.parseRows, alloc]
    split
    · exact ih _ _ _
    · split
      · exact ih _ _ _
      · exact ih _ _ _

theorem parseRows_error_stays (s : Store) (L : Ledger) (m : String)
    (rows : List RawRow) :
    (Ledger.parseRows s L (some m) rows).2.2 = some m := by
  induction rows generalizing s L with
  | nil => rfl
  | cons row rest ih =>
    simp only [Ledger.parseRows, alloc]
    split
    · exact ih _ _
    · split
      · exact ih _ _
      · exact ih _ _

theorem parseRows_bad_cons (s : Store) (L : Ledger) (e : Option String)
    (row : RawRow) (rest : List RawRow) (msg : String)
    (hf : Ledger._formatRecord row = .error msg) :
    Ledger.parseRows s L e (row :: rest) =
      Ledger.parseRows s L (firstErr e msg) rest := by
  simp only [Ledger.parseRows, hf]

/-- C5 counterexample: on the rows valid, bad-date, valid, parse
rejects with the first error (naming the raw value ding), yet the
canonical log afterwards holds two transactions: the valid row after
the failing row was also ingested, contradicting the claim that no row
after the failing row is ingested. -/
theorem C5_counterexample :
    (Ledger.parse [] Ledger.new
        (some [⟨"2015-01-16", "john", "mary", "125.00"⟩,
               ⟨"ding", "a", "b", "1"⟩,
               ⟨"2015-01-17", "john", "supermarket", "20.00"⟩])).2.2 =
      some "invalid date format in input: ding" ∧
    (Ledger.parse [] Ledger.new
        (some [⟨"2015-01-16", "john", "mary", "125.00"⟩,
               ⟨"ding", "a", "b", "1"⟩,
               ⟨"2015-01-17", "john", "supermarket", "20.00"⟩])).2.1.transactions.length =
      2 := by
  constructor <;> decide

/-- C5 (amended): when the input rows are pre ++ bad :: post, with pre
ingesting without error and bad failing validation with message m, the
parse promise rejects with m (the first error wins); every row of pre
has been durably ingested before the failure and is retained (no
rollback), the failing row itself is not ingested, but - contrary to
the original claim - the loop keeps consuming the stream, so the rows
of post are processed as well and its valid rows are also ingested: the
final state is exactly that of processing pre and then post. -/
theorem C5_amended (s : Store) (L : Ledger) (pre post : List RawRow)
    (bad : RawRow) (m : String)
    (hpre : (Ledger.parseRows s L none pre).2.2 = none)
    (hbad : Ledger._formatRecord bad = .error m) :
    Ledger.parse s L (some (pre ++ bad :: post)) =
      Ledger.parseRows (Ledger.parseRows s L none pre).1
        (Ledger.parseRows s L none pre).2.1 (some m) post ∧
    (Ledger.parse s L (some (pre ++ bad :: post))).2.2 = some m := by
  have h1 : Ledger.parse s L (some (pre ++ bad :: post)) =
      Ledger.parseRows (Ledger.parseRows s L none pre).1
        (Ledger.parseRows s L none pre).2.1 (Ledger.parseRows s L none pre).2.2
        (bad :: post) := by
    show Ledger.parseRows s L none (pre ++ bad :: post) = _
    exact parseRows_append s L none pre (bad :: post)
  rw [hpre] at h1
  rw [h1, parseRows_bad_cons _ _ _ _ _ _ hbad]
  exact ⟨rfl, parseRows_error_stays _ _ _ _⟩

/-- C5 witness: one valid row, then a bad date, then another valid
row. -/
theorem C5_amended_witness :
    (Ledger.parseRows [] Ledger.new none
        [⟨"2015-01-16", "john", "mary", "125.00"⟩]).2.2 = none ∧
    Ledger._formatRecord ⟨"ding", "a", "b", "1"⟩ =
      .error "invalid date format in input: ding" ∧
    (Ledger.parse [] Ledger.new
        (some ([⟨"2015-01-16", "john", "mary", "125.00"⟩] ++
          ⟨"ding", "a", "b", "1"⟩ ::
            [⟨"2015-01-17", "john", "supermarket", "20.00"⟩])) =
      Ledger.parseRows
        (Ledger.parseRows [] Ledger.new none
          [⟨"2015-01-16", "john", "mary", "125.00"⟩]).1
        (Ledger.parseRows [] Ledger.new none
          [⟨"2015-01-16", "john", "mary", "125.00"⟩]).2.1
        (some "invalid date format in input: ding")
        [⟨"2015-01-17", "john", "supermarket", "20.00"⟩] ∧
    (Ledger.parse [] Ledger.new
        (some ([⟨"2015-01-16", "john", "mary", "125.00"⟩] ++
          ⟨"ding", "a", "b", "1"⟩ ::
            [⟨"2015-01-17", "john", "supermarket", "20.00"⟩]))).2.2 =
      some "invalid date format in input: ding") :=
  ⟨by decide, rfl,
    C5_amended [] Ledger.new [⟨"2015-01-16", "john", "mary", "125.00"⟩]
      [⟨"2015-01-17", "john", "supermarket", "20.00"⟩]
      ⟨"ding", "a", "b", "1"⟩ "invalid date format in input: ding"
      (by decide) rfl⟩

end LedgerModel
